import Mathlib

/-!
# Verification of `src/fourier.hpp` (class `Fourier<FftPolicy>`)

Shallow embedding conventions:
* C++ `double` arithmetic is modelled by exact real arithmetic; the literal
  `3.141592653589793` in the source stands for π and is modelled as `Real.pi`.
* The caller-supplied pointer `double* data` (resp. `T* data`, converted
  element-wise to `double`) is modelled as a total function `ℕ → ℝ`, the
  memory reachable through the pointer; `size` is the number of samples the
  caller actually supplies.
* `std::complex<double>` is `ℂ`; `std::abs` is `Complex.abs`; `std::arg` is
  `Complex.arg` (the principal argument, i.e. `atan2(imag, real)`).
* The template parameter `FftPolicy` (its static members `calc_size` and
  `fft`) is an arbitrary structure value.
* Member functions that mutate the object are functions from the old state
  to (return value × new state).
-/

namespace FFT

/-- The external `FftPolicy` template parameter: its static members
`calc_size(size)` and `fft(data, rotors)`. -/
structure FftPolicy where
  calc_size : Nat → Nat
  fft : List ℝ → List ℂ → List ℂ

/-- `std::vector<T>::resize(n)` applied to `l`: truncate to `n` elements, or
pad at the end with value-initialized elements `x` (`0` for the types used
here). Existing elements are NOT cleared. -/
def listResize (l : List α) (n : Nat) (x : α) : List α :=
  l.take n ++ List.replicate (n - l.length) x

/-- The member state of class `Fourier`: `rotors_`, `fouriers_`, `data_`,
`size_`. -/
structure Fourier where
  rotors_ : List ℂ
  fouriers_ : List ℂ
  data_ : List ℝ
  size_ : Nat

/-- Body of `Fourier::calc_rotors`: for `k < size_`,
`rotors_[k] = complex(cos(base_freq*k), sin(base_freq*k))` with
`base_freq = 2π/size_`. -/
noncomputable def calc_rotors (N : Nat) : List ℂ :=
  (List.range N).map fun (k : Nat) =>
    ⟨Real.cos (2 * Real.pi / (N : ℝ) * (k : ℝ)),
     Real.sin (2 * Real.pi / (N : ℝ) * (k : ℝ))⟩

/-- Constructor `Fourier::Fourier(size_t size)`:
`size_ = FftPolicy::calc_size(size)` then `calc_rotors()`. The vectors
`fouriers_` and `data_` start default-constructed (empty). -/
noncomputable def mkFourier (p : FftPolicy) (size : Nat) : Fourier :=
  { rotors_ := calc_rotors (p.calc_size size)
    fouriers_ := []
    data_ := []
    size_ := p.calc_size size }

/-- `Fourier::rotors()` accessor. -/
def Fourier.rotors (f : Fourier) : List ℂ := f.rotors_

/-- `Fourier::size()` accessor. -/
def Fourier.size (f : Fourier) : Nat := f.size_

/-- `Fourier::fourier_coef()` accessor. -/
def Fourier.fourier_coef (f : Fourier) : List ℂ := f.fouriers_

/-- The indices `i` at which the load loop
`for (size_t i = 0; i < size_; ++i) { data_[i] = data[i]; }` (present in both
`dft` and `fft`) reads the caller's array: all of `0 .. size_ - 1`. The bound
is the member `size_`, not the caller's `size` argument. -/
def Fourier.loadReads (f : Fourier) : List Nat := List.range f.size_

/-- The working buffer `data_` as produced by `resize(size_)`, the zero fill,
and then the load loop above: every position `i < size_` is overwritten with
`data[i]`. -/
def Fourier.loadData (f : Fourier) (data : Nat → ℝ) : List ℝ :=
  f.loadReads.map data

/-- Entry `(k, n)` of the `mtx_rotors` matrix built inside `Fourier::dft`:
`complex(cos(base_freq*k*n), sin(base_freq*k*n))` with `base_freq = 2π/size_`
(here `size_ = N`). -/
noncomputable def dftMatrix (N k n : Nat) : ℂ :=
  ⟨Real.cos (2 * Real.pi / (N : ℝ) * (k : ℝ) * (n : ℝ)),
   Real.sin (2 * Real.pi / (N : ℝ) * (k : ℝ) * (n : ℝ))⟩

/-- `Fourier::dft(double* data, size_t size)`. Fails when `size > size_`;
otherwise loads the working buffer, does `fouriers_.resize(size_)` (which
keeps existing entries), accumulates `fouriers_[k] += mtx_rotors[k*N+n] *
data_.at(n)`, and finally maps `value = value / complex(1.0/size_, 0.0)`
over `fouriers_`. Returns (C++ return value, post-call state). -/
noncomputable def Fourier.dft (f : Fourier) (data : Nat → ℝ) (size : Nat) :
    Bool × Fourier :=
  if size > f.size_ then (false, f)
  else
    let N := f.size_
    let buf := f.loadData data
    let acc : Nat → ℂ := fun k =>
      (listResize f.fouriers_ N 0).getD k 0
        + ∑ n ∈ Finset.range N, dftMatrix N k n * ((buf.getD n 0 : ℝ) : ℂ)
    let stored := (List.range N).map fun k => acc k / (⟨1 / (N : ℝ), 0⟩ : ℂ)
    (true, { f with data_ := buf, fouriers_ := stored })

/-- `Fourier::fft(T* data, size_t size)`. Fails when `size > size_`;
otherwise loads the working buffer the same way as `dft` and stores
`fouriers_ = FftPolicy::fft(data_, rotors_)` unchanged. -/
def Fourier.fft (p : FftPolicy) (f : Fourier) (data : Nat → ℝ) (size : Nat) :
    Bool × Fourier :=
  if size > f.size_ then (false, f)
  else
    let buf := f.loadData data
    (true, { f with data_ := buf, fouriers_ := p.fft buf f.rotors_ })

/-- `Fourier::amplifiers()`: `std::abs` of each stored coefficient. -/
noncomputable def Fourier.amplifiers (f : Fourier) : List ℝ :=
  f.fouriers_.map fun z => Complex.abs z

/-- `Fourier::power_spectrums()`: takes `amplifiers()` and squares each
entry in place (`value *= value`). -/
noncomputable def Fourier.power_spectrums (f : Fourier) : List ℝ :=
  f.amplifiers.map fun v => v * v

/-- `Fourier::angles()`: `std::arg` of each stored coefficient. -/
noncomputable def Fourier.angles (f : Fourier) : List ℝ :=
  f.fouriers_.map fun z => Complex.arg z

/-- Concrete policy for witnesses: identity working size, a fixed fft
output. -/
def wPolicy : FftPolicy :=
  { calc_size := fun n => n
    fft := fun _ _ => [(⟨3, 4⟩ : ℂ)] }

/-- A working-size-1 engine built from `wPolicy`. -/
noncomputable def engine1 : Fourier := mkFourier wPolicy 1

/-- A working-size-2 engine built from `wPolicy`. -/
noncomputable def engine2 : Fourier := mkFourier wPolicy 2

/-- Concrete engine state with one stored coefficient, for the C6 witness. -/
def wState : Fourier :=
  { rotors_ := []
    fouriers_ := [(⟨3, 4⟩ : ℂ)]
    data_ := []
    size_ := 1 }

/-- Caller samples `[1, 0]` for the C1 failing input (the memory beyond the
two supplied samples is zero, which only helps the claim). -/
def sampleC1 : Nat → ℝ := fun i => if i = 0 then 1 else 0

/-- Caller memory for the C2 failing input: the single supplied sample is
`5`; the memory beyond it holds `7`. -/
def sampleC2 : Nat → ℝ := fun i => if i = 0 then 5 else 7

/-- C7: a freshly constructed engine returns empty sequences from
`fourier_coef`, `amplifiers`, `power_spectrums` and `angles`. -/
theorem C7_fresh_empty (p : FftPolicy) (len : Nat) :
    (mkFourier p len).fourier_coef = []
      ∧ (mkFourier p len).amplifiers = []
      ∧ (mkFourier p len).power_spectrums = []
      ∧ (mkFourier p len).angles = [] :=
  ⟨rfl, rfl, rfl, rfl⟩

/-- C4: `dft` and `fft` return `false` exactly when the caller supplies more
samples than the working size, and `size()` reports the same working size
after a failed (or any) call. -/
theorem C4_reject_iff_oversized (p : FftPolicy) (f : Fourier) (data : Nat → ℝ)
    (count : Nat) :
    ((f.dft data count).1 = false ↔ count > f.size)
      ∧ ((f.fft p data count).1 = false ↔ count > f.size)
      ∧ (f.dft data count).2.size = f.size
      ∧ (f.fft p data count).2.size = f.size := by
  unfold Fourier.dft Fourier.fft Fourier.size
  by_cases h : count > f.size_ <;> simp [h]

/-- Helper: `dft` never touches `rotors_`. -/
theorem dft_preserves_rotors (f : Fourier) (data : Nat → ℝ) (count : Nat) :
    (f.dft data count).2.rotors_ = f.rotors_ := by
  unfold Fourier.dft
  split <;> rfl

/-- Helper: `fft` never touches `rotors_`. -/
theorem fft_preserves_rotors (p : FftPolicy) (f : Fourier) (data : Nat → ℝ)
    (count : Nat) : (f.fft p data count).2.rotors_ = f.rotors_ := by
  unfold Fourier.fft
  split <;> rfl

/-- C5: an accepted `fft` call stores as `fouriers_` exactly the policy's
`fft(workingBuffer, rotationTable)` output, with no division by N or other
scaling applied by the adapter. -/
theorem C5_fft_delegates (p : FftPolicy) (f : Fourier) (data : Nat → ℝ)
    (count : Nat) (h : count ≤ f.size_) :
    (f.fft p data count).2.fouriers_ = p.fft (f.loadData data) f.rotors_
      ∧ (f.fft p data count).2.data_ = f.loadData data := by
  unfold Fourier.fft
  rw [if_neg (by omega)]
  exact ⟨rfl, rfl⟩

/-- C5 witness: `engine2` (working size 2), one accepted `fft` call with two
samples. -/
theorem C5_fft_delegates_witness :
    (engine2.fft wPolicy (fun _ => 5) 2).2.fouriers_
        = wPolicy.fft (engine2.loadData fun _ => 5) engine2.rotors_
      ∧ (engine2.fft wPolicy (fun _ => 5) 2).2.data_
        = engine2.loadData fun _ => 5 :=
  C5_fft_delegates wPolicy engine2 (fun _ => 5) 2 (Nat.le_refl 2)

/-- C9: a `dft` or `fft` call that fails (`count > size_`) leaves the whole
object state — coefficients, working buffer, rotation table and size —
exactly as it was. -/
theorem C9_failure_atomic (p : FftPolicy) (f : Fourier) (data : Nat → ℝ)
    (count : Nat) (h : count > f.size_) :
    (f.dft data count).2 = f ∧ (f.fft p data count).2 = f := by
  unfold Fourier.dft Fourier.fft
  rw [if_pos h, if_pos h]
  exact ⟨rfl, rfl⟩

/-- C9 witness: `engine1` (working size 1) with an oversized call
(`count = 2`). -/
theorem C9_failure_atomic_witness :
    (engine1.dft (fun _ => 0) 2).2 = engine1
      ∧ (engine1.fft wPolicy (fun _ => 0) 2).2 = engine1 :=
  C9_failure_atomic wPolicy engine1 (fun _ => 0) 2 (Nat.lt.base 1)

/-- C6: at every index of a non-empty coefficient sequence the amplitude is
`sqrt(re² + im²)` (so non-negative), the power is the squared amplitude, and
the angle is the principal argument `atan2(imag, real)`, lying in `(-π, π]`. -/
theorem C6_spectra (f : Fourier) (k : Nat) (hk : k < f.fouriers_.length) :
    f.amplifiers.getD k 0
        = Real.sqrt ((f.fouriers_.getD k 0).re ^ 2 + (f.fouriers_.getD k 0).im ^ 2)
      ∧ 0 ≤ f.amplifiers.getD k 0
      ∧ f.power_spectrums.getD k 0 = f.amplifiers.getD k 0 ^ 2
      ∧ f.angles.getD k 0 = Complex.arg (f.fouriers_.getD k 0)
      ∧ -Real.pi < f.angles.getD k 0
      ∧ f.angles.getD k 0 ≤ Real.pi := by
  have hka : k < f.amplifiers.length := by
    simpa [Fourier.amplifiers] using hk
  have hkp : k < f.power_spectrums.length := by
    simpa [Fourier.power_spectrums, Fourier.amplifiers] using hk
  have hkg : k < f.angles.length := by
    simpa [Fourier.angles] using hk
  have ha : f.amplifiers.getD k 0 = Complex.abs (f.fouriers_.getD k 0) := by
    rw [List.getD_eq_getElem _ _ hka, List.getD_eq_getElem _ _ hk]
    simp [Fourier.amplifiers]
  have hp : f.power_spectrums.getD k 0
      = f.amplifiers.getD k 0 * f.amplifiers.getD k 0 := by
    rw [List.getD_eq_getElem _ _ hkp, List.getD_eq_getElem _ _ hka]
    simp [Fourier.power_spectrums]
  have hg : f.angles.getD k 0 = Complex.arg (f.fouriers_.getD k 0) := by
    rw [List.getD_eq_getElem _ _ hkg, List.getD_eq_getElem _ _ hk]
    simp [Fourier.angles]
  refine ⟨?_, ?_, ?_, hg, ?_, ?_⟩
  · rw [ha, Complex.abs_apply, Complex.normSq_apply]
    congr 1
    ring
  · rw [ha]
    exact Complex.abs.nonneg _
  · rw [hp, sq]
  · rw [hg]
    exact Complex.neg_pi_lt_arg _
  · rw [hg]
    exact Complex.arg_le_pi _

/-- C6 witness: the consistency relations at index 0 of `wState`. -/
theorem C6_spectra_witness :
    wState.amplifiers.getD 0 0
        = Real.sqrt ((wState.fouriers_.getD 0 0).re ^ 2
            + (wState.fouriers_.getD 0 0).im ^ 2)
      ∧ 0 ≤ wState.amplifiers.getD 0 0
      ∧ wState.power_spectrums.getD 0 0 = wState.amplifiers.getD 0 0 ^ 2
      ∧ wState.angles.getD 0 0 = Complex.arg (wState.fouriers_.getD 0 0)
      ∧ -Real.pi < wState.angles.getD 0 0
      ∧ wState.angles.getD 0 0 ≤ Real.pi :=
  C6_spectra wState 0 (by simp [wState])

/-- Helper: the `k`-th rotor produced by `calc_rotors`. -/
theorem calc_rotors_getD (N k : Nat) (hk : k < N) :
    (calc_rotors N).getD k 0
      = ⟨Real.cos (2 * Real.pi / (N : ℝ) * (k : ℝ)),
         Real.sin (2 * Real.pi / (N : ℝ) * (k : ℝ))⟩ := by
  have hl : k < (calc_rotors N).length := by
    rw [calc_rotors, List.length_map, List.length_range]
    exact hk
  rw [List.getD_eq_getElem _ _ hl]
  simp only [calc_rotors, List.getElem_map, List.getElem_range]

/-- Helper: a `cos θ + i sin θ` value has absolute value 1. -/
theorem abs_cos_sin (θ : ℝ) :
    Complex.abs ⟨Real.cos θ, Real.sin θ⟩ = 1 := by
  rw [Complex.abs_apply, Complex.normSq_mk]
  have h : Real.cos θ * Real.cos θ + Real.sin θ * Real.sin θ = 1 := by
    nlinarith [Real.sin_sq_add_cos_sq θ]
  rw [h, Real.sqrt_one]

/-- C8: after construction the rotation table has exactly
`calc_size(requestedLength)` entries, entry `k` is
`cos(2πk/N) + i·sin(2πk/N)`, entry 0 is `1 + 0i`, every entry lies on the
unit circle, and neither `dft` nor `fft` changes the table. -/
theorem C8_rotors (p : FftPolicy) (len : Nat) (data : Nat → ℝ) (count : Nat) :
    (mkFourier p len).rotors_.length = p.calc_size len
      ∧ (∀ k, k < p.calc_size len →
          (mkFourier p len).rotors_.getD k 0
            = ⟨Real.cos (2 * Real.pi * (k : ℝ) / (p.calc_size len : ℝ)),
               Real.sin (2 * Real.pi * (k : ℝ) / (p.calc_size len : ℝ))⟩)
      ∧ (0 < p.calc_size len → (mkFourier p len).rotors_.getD 0 0 = 1)
      ∧ (∀ k, k < p.calc_size len →
          Complex.abs ((mkFourier p len).rotors_.getD k 0) = 1)
      ∧ ((mkFourier p len).dft data count).2.rotors_ = (mkFourier p len).rotors_
      ∧ ((mkFourier p len).fft p data count).2.rotors_
          = (mkFourier p len).rotors_ := by
  have harg : ∀ k : Nat, 2 * Real.pi / (p.calc_size len : ℝ) * (k : ℝ)
      = 2 * Real.pi * (k : ℝ) / (p.calc_size len : ℝ) := by
    intro k
    ring
  refine ⟨?_, ?_, ?_, ?_, dft_preserves_rotors _ _ _, fft_preserves_rotors _ _ _ _⟩
  · show (calc_rotors (p.calc_size len)).length = p.calc_size len
    rw [calc_rotors, List.length_map, List.length_range]
  · intro k hk
    show (calc_rotors (p.calc_size len)).getD k 0 = _
    rw [calc_rotors_getD _ _ hk, harg]
  · intro h0
    show (calc_rotors (p.calc_size len)).getD 0 0 = 1
    rw [calc_rotors_getD _ _ h0]
    apply Complex.ext <;> simp
  · intro k hk
    show Complex.abs ((calc_rotors (p.calc_size len)).getD k 0) = 1
    rw [calc_rotors_getD _ _ hk]
    exact abs_cos_sin _

/-- C8 witness: on a working-size-2 engine, rotor 0 is `1` and rotor 1 lies
on the unit circle. -/
theorem C8_rotors_witness :
    0 < wPolicy.calc_size 2
      ∧ (mkFourier wPolicy 2).rotors_.getD 0 0 = 1
      ∧ Complex.abs ((mkFourier wPolicy 2).rotors_.getD 1 0) = 1 :=
  ⟨by decide,
   (C8_rotors wPolicy 2 (fun _ => 0) 0).2.2.1 (by decide),
   (C8_rotors wPolicy 2 (fun _ => 0) 0).2.2.2.1 1 (by decide)⟩

/-- Helper: `dft` never changes `size_`. -/
theorem dft_preserves_size (f : Fourier) (d : Nat → ℝ) (c : Nat) :
    (f.dft d c).2.size_ = f.size_ := by
  unfold Fourier.dft
  split <;> rfl

/-- Helper: the working buffer stored by an accepted `dft` call. -/
theorem dft_data_eq (f : Fourier) (d : Nat → ℝ) (c : Nat) (hc : c ≤ f.size_) :
    (f.dft d c).2.data_ = f.loadData d := by
  unfold Fourier.dft
  rw [if_neg (Nat.not_lt.mpr hc)]

/-- Helper: the working buffer stored by an accepted `fft` call. -/
theorem fft_data_eq (p : FftPolicy) (f : Fourier) (d : Nat → ℝ) (c : Nat)
    (hc : c ≤ f.size_) : (f.fft p d c).2.data_ = f.loadData d := by
  unfold Fourier.fft
  rw [if_neg (Nat.not_lt.mpr hc)]

/-- Helper: the coefficient list stored by an accepted `dft` call, as the
source computes it (resize-without-clear, accumulate, divide by
`complex(1/N, 0)`). -/
theorem dft_fouriers_eq (f : Fourier) (data : Nat → ℝ) (count : Nat)
    (hc : count ≤ f.size_) :
    (f.dft data count).2.fouriers_
      = (List.range f.size_).map (fun (k : Nat) =>
          ((listResize f.fouriers_ f.size_ 0).getD k 0
            + ∑ n ∈ Finset.range f.size_,
                dftMatrix f.size_ k n * (((f.loadData data).getD n 0 : ℝ) : ℂ))
          / (⟨1 / (f.size_ : ℝ), 0⟩ : ℂ)) := by
  unfold Fourier.dft
  rw [if_neg (Nat.not_lt.mpr hc)]

/-- Helper: entry `k` of the stored coefficient list of an accepted `dft`
call. -/
theorem dft_fouriers_getD (f : Fourier) (data : Nat → ℝ) (count k : Nat)
    (hc : count ≤ f.size_) (hk : k < f.size_) :
    (f.dft data count).2.fouriers_.getD k 0
      = ((listResize f.fouriers_ f.size_ 0).getD k 0
          + ∑ n ∈ Finset.range f.size_,
              dftMatrix f.size_ k n * (((f.loadData data).getD n 0 : ℝ) : ℂ))
        / (⟨1 / (f.size_ : ℝ), 0⟩ : ℂ) := by
  rw [dft_fouriers_eq _ _ _ hc]
  rw [List.getD_eq_getElem _ _ (by simpa using hk)]
  rw [List.getElem_map, List.getElem_range]

/-- Helper: row 0 of the matrix built inside `dft` is all ones
(`cos 0 + i sin 0`). -/
theorem dftMatrix_row_zero (N n : Nat) : dftMatrix N 0 n = 1 := by
  unfold dftMatrix
  apply Complex.ext <;> simp

/-- Helper: dividing by `complex(1.0/size_, 0.0)` — what the source does in
the name of normalization — multiplies by `size_`. -/
theorem div_mk_inv (z : ℂ) (N : Nat) :
    z / (⟨1 / (N : ℝ), 0⟩ : ℂ) = z * (N : ℂ) := by
  have h : (⟨1 / (N : ℝ), 0⟩ : ℂ) = 1 / (N : ℂ) := by
    rw [show (⟨1 / (N : ℝ), 0⟩ : ℂ) = ((1 / (N : ℝ) : ℝ) : ℂ) from rfl]
    push_cast
    ring
  rw [h, div_div_eq_mul_div, div_one]

/-- Helper: `resize` to length 1 keeps (or default-initializes) entry 0. -/
theorem listResize_one_getD_zero (l : List ℂ) :
    (listResize l 1 0).getD 0 0 = l.getD 0 0 := by
  cases l <;> simp [listResize]

/-- Helper: on an engine of working size 1, an accepted one-sample `dft`
call stores `[previous coefficient 0 + data[0]]`. -/
theorem dft_size_one (f : Fourier) (d : Nat → ℝ) (hs : f.size_ = 1) :
    (f.dft d 1).2.fouriers_ = [f.fouriers_.getD 0 0 + ((d 0 : ℝ) : ℂ)] := by
  rw [dft_fouriers_eq _ _ _ (by omega)]
  rw [hs, show List.range 1 = [0] from rfl, List.map_cons, List.map_nil]
  congr 1
  rw [Finset.sum_range_one, dftMatrix_row_zero, one_mul, div_mk_inv,
    Nat.cast_one, mul_one, listResize_one_getD_zero]
  congr 1
  simp [Fourier.loadData, Fourier.loadReads, hs]

/-- C3 (code bug): on a working-size-1 engine, calling `dft` on samples `[1]`
twice leaves coefficient 0 equal to `2`, while a single call on the fresh
engine leaves `1`: `fouriers_.resize` does not clear prior values and the
accumulation loop uses `+=`, so the second call adds into the prior result
instead of replacing it. -/
theorem C3_eval :
    ((engine1.dft (fun _ => 1) 1).2.dft (fun _ => 1) 1).2.fouriers_.getD 0 0 = 2
      ∧ (engine1.dft (fun _ => 1) 1).2.fouriers_.getD 0 0 = 1
      ∧ (2 : ℂ) ≠ (1 : ℂ) := by
  have hs1 : engine1.size_ = 1 := rfl
  have h1 : (engine1.dft (fun _ => 1) 1).2.fouriers_ = [(1 : ℂ)] := by
    rw [dft_size_one _ _ hs1]
    norm_num [engine1, mkFourier]
  have hs2 : (engine1.dft (fun _ => 1) 1).2.size_ = 1 := by
    rw [dft_preserves_size, hs1]
  have h2 : ((engine1.dft (fun _ => 1) 1).2.dft (fun _ => 1) 1).2.fouriers_
      = [(2 : ℂ)] := by
    rw [dft_size_one _ _ hs2, h1]
    norm_num
  refine ⟨?_, ?_, by norm_num⟩
  · rw [h2]
    rfl
  · rw [h1]
    rfl

/-- C1 (code bug): at the failing input (working size 2, samples `[1, 0]`,
count 2) the stored coefficient 0 is the raw accumulated sum times N = 2,
not the sum divided by N: the code divides by `complex(1.0/N, 0.0)`, which
multiplies by N. -/
theorem C1_eval :
    (engine2.dft sampleC1 2).2.fouriers_.getD 0 0
        = (∑ n ∈ Finset.range 2, dftMatrix 2 0 n * ((sampleC1 n : ℝ) : ℂ)) * 2
      ∧ (engine2.dft sampleC1 2).2.fouriers_.getD 0 0
        ≠ (∑ n ∈ Finset.range 2, dftMatrix 2 0 n * ((sampleC1 n : ℝ) : ℂ)) / 2 := by
  have hs : engine2.size_ = 2 := rfl
  have hsum : (∑ n ∈ Finset.range 2, dftMatrix 2 0 n * ((sampleC1 n : ℝ) : ℂ))
      = 1 := by
    rw [Finset.sum_range_succ, Finset.sum_range_one, dftMatrix_row_zero,
      dftMatrix_row_zero]
    norm_num [sampleC1]
  have hbuf : engine2.loadData sampleC1 = [1, 0] := by
    simp [Fourier.loadData, Fourier.loadReads, hs, List.range_succ, sampleC1]
  have hval : (engine2.dft sampleC1 2).2.fouriers_.getD 0 0 = 2 := by
    rw [dft_fouriers_getD _ _ _ _ (by omega) (by omega)]
    rw [hs, hbuf, div_mk_inv]
    have hres : (listResize engine2.fouriers_ 2 0).getD 0 0 = 0 := rfl
    rw [hres]
    rw [Finset.sum_range_succ, Finset.sum_range_one, dftMatrix_row_zero,
      dftMatrix_row_zero]
    norm_num
  rw [hval, hsum]
  norm_num

/-- C2 (code bug): the load loop bound is the member `size_`, not the
caller's count, so with working size 2 and a single supplied sample `5`
(memory beyond it holding `7`) the working buffer after `dft` or `fft`
is `[5, 7]`, not the zero-padded `[5, 0]`. -/
theorem C2_eval :
    (engine2.dft sampleC2 1).1 = true
      ∧ (engine2.dft sampleC2 1).2.data_ = [5, 7]
      ∧ (engine2.fft wPolicy sampleC2 1).2.data_ = [5, 7]
      ∧ (engine2.dft sampleC2 1).2.data_ ≠ [5, 0] := by
  have hs : engine2.size_ = 2 := rfl
  have hbuf : engine2.loadData sampleC2 = [5, 7] := by
    simp [Fourier.loadData, Fourier.loadReads, hs, List.range_succ, sampleC2]
  have hd : (engine2.dft sampleC2 1).2.data_ = [5, 7] := by
    rw [dft_data_eq _ _ _ (by omega), hbuf]
  refine ⟨?_, hd, ?_, ?_⟩
  · unfold Fourier.dft
    rw [if_neg (by omega)]
  · rw [fft_data_eq _ _ _ _ (by omega), hbuf]
  · rw [hd]
    simp

/-- C10 (code bug): the accepted call `dft(data, 0)` on a working-size-1
engine still reads index 0 of the caller's array — the load loop reads
every index below `size_`, not below the caller's count. -/
theorem C10_eval :
    (engine1.dft (fun _ => 0) 0).1 = true
      ∧ engine1.loadReads = [0]
      ∧ ¬ (∀ i ∈ engine1.loadReads, i < 0) := by
  have hs : engine1.size_ = 1 := rfl
  refine ⟨?_, ?_, ?_⟩
  · unfold Fourier.dft
    rw [if_neg (by omega)]
  · rw [Fourier.loadReads, hs]
    rfl
  · rw [Fourier.loadReads, hs]
    intro h
    exact absurd (h 0 (by simp)) (by omega)

end FFT
